import Mathlib

/-!
# Vue3-PaddleJS-OCR: the dev-server configuration `vite.config.js`

The file exports one object literal, handed to `defineConfig`:

```
export default defineConfig({
  plugins: [vue()],
  server: {
    port: 5173,
    proxy: {
      '/models/': {
        target: 'https://paddlejs.bj.bcebos.com',
        changeOrigin: true,
        rewrite: (path) => path
      }
    }
  }
})
```

The embedding keeps the literal as a JavaScript value: objects are ordered
lists of key/value pairs, so that "which keys does this object have" is a
question about the value and not about a Lean record type.  The two imported
names (`vue` from `@vitejs/plugin-vue`, `defineConfig` from `vite`) are not
code of this repository; they are parameters.
-/

namespace ViteConfig

/-- JavaScript values as far as the configuration literal uses them.  `Ext` is
the type of values produced by imported code (here: what `vue()` returns).
A function value is one that takes the request path, a string, and returns the
forwarded path. -/
inductive JSValue (Ext : Type) where
  | number : Int → JSValue Ext
  | string : String → JSValue Ext
  | boolean : Bool → JSValue Ext
  | function : (String → String) → JSValue Ext
  | array : List (JSValue Ext) → JSValue Ext
  | object : List (String × JSValue Ext) → JSValue Ext
  | foreign : Ext → JSValue Ext

namespace JSValue

variable {Ext : Type}

/-- The own enumerable entries of an object, in source order (`Object.entries`);
a value that is not an object has none. -/
def entries : JSValue Ext → List (String × JSValue Ext)
  | object kvs => kvs
  | _ => []

/-- The own keys of an object, in source order (`Object.keys`). -/
def keys (v : JSValue Ext) : List String :=
  v.entries.map Prod.fst

/-- Property access `v[k]`; `none` stands for `undefined`. -/
def get? (v : JSValue Ext) (k : String) : Option (JSValue Ext) :=
  v.entries.lookup k

/-- The elements of an array value. -/
def elems? : JSValue Ext → Option (List (JSValue Ext))
  | array xs => some xs
  | _ => none

/-- The string held by a string value. -/
def asString? : JSValue Ext → Option String
  | string s => some s
  | _ => none

/-- Calling a function value on a path string. -/
def call? : JSValue Ext → String → Option String
  | function f, p => some (f p)
  | _, _ => none

end JSValue

open JSValue

/-- The arrow function `(path) => path` of line 14. -/
def rewrite (path : String) : String := path

/-- The rule stored under `'/models/'` (lines 11-15). -/
def modelsRule (Ext : Type) : JSValue Ext :=
  object [
    ("target", string "https://paddlejs.bj.bcebos.com"),
    ("changeOrigin", boolean true),
    ("rewrite", function rewrite)
  ]

/-- The `proxy` table (lines 9-16). -/
def proxy (Ext : Type) : JSValue Ext :=
  object [
    ("/models/", modelsRule Ext)
  ]

/-- The `server` object (lines 7-17). -/
def server (Ext : Type) : JSValue Ext :=
  object [
    ("port", number 5173),
    ("proxy", proxy Ext)
  ]

/-- The object literal of lines 5-18.  `vue` is the imported plugin factory,
applied to its argument list; the source calls it with no arguments. -/
def config {Ext : Type} (vue : List (JSValue Ext) → Ext) : JSValue Ext :=
  object [
    ("plugins", array [foreign (vue [])]),
    ("server", server Ext)
  ]

/-- The module's default export: `defineConfig` applied to the literal. -/
def defaultExport {Ext : Type} (defineConfig : JSValue Ext → JSValue Ext)
    (vue : List (JSValue Ext) → Ext) : JSValue Ext :=
  defineConfig (config vue)

/-- Property path `config.server`, or `undefined`. -/
def serverOf {Ext : Type} (cfg : JSValue Ext) : Option (JSValue Ext) :=
  cfg.get? "server"

/-- Property path `config.server.proxy`, or `undefined`. -/
def proxyOf {Ext : Type} (cfg : JSValue Ext) : Option (JSValue Ext) :=
  (serverOf cfg).bind (fun s => s.get? "proxy")

/-- Property path `config.server.port`, or `undefined`. -/
def portOf {Ext : Type} (cfg : JSValue Ext) : Option (JSValue Ext) :=
  (serverOf cfg).bind (fun s => s.get? "port")

/-- Property path `config.server.proxy[key]`, or `undefined`. -/
def ruleOf {Ext : Type} (cfg : JSValue Ext) (key : String) : Option (JSValue Ext) :=
  (proxyOf cfg).bind (fun t => t.get? key)

/-- A stand-in for the imported plugin factory, used where a closed instance of
a statement is evaluated: it ignores its arguments. -/
def sampleVue : List (JSValue Unit) → Unit :=
  fun _ => ()

/-! ## Vocabulary of the specification -/

/-- String prefix test `p.startsWith(k)`: `k` is a prefix of `p`, character by
character. -/
def startsWith (p k : String) : Bool :=
  k.data.isPrefixOf p.data

/-- The forwarded location the specification speaks of: the rule's `target`
followed by the rule's `rewrite` applied to the request path. -/
def specForwardedLocation {Ext : Type} (rule : JSValue Ext) (p : String) : Option String :=
  (rule.get? "target").bind fun t =>
  t.asString?.bind fun target =>
  (rule.get? "rewrite").bind fun f =>
  (f.call? p).map fun q => target ++ q

/-- The characters a host label is made of: ASCII letters, ASCII digits and the
hyphen. -/
def specLabelChar (c : Char) : Bool :=
  (97 ≤ c.toNat && c.toNat ≤ 122) ||
  (65 ≤ c.toNat && c.toNat ≤ 90) ||
  (48 ≤ c.toNat && c.toNat ≤ 57) ||
  c == '-'

/-- The pieces of a character list between its dots; a list without a dot is
its own single piece, and two dots in a row, a leading dot or a trailing dot
leave an empty piece. -/
def specSplitDots : List Char → List (List Char)
  | [] => [[]]
  | c :: cs =>
    if c = '.' then [] :: specSplitDots cs
    else
      match specSplitDots cs with
      | [] => [[c]]
      | l :: ls => (c :: l) :: ls

/-- One label of a host name: between 1 and 63 characters, each a letter, a
digit or a hyphen, the first and the last not a hyphen. -/
def specValidLabel (l : List Char) : Bool :=
  !l.isEmpty && decide (l.length ≤ 63) &&
  l.all specLabelChar &&
  l.head? != some '-' && l.getLast? != some '-'

/-- A syntactically valid host: a non-empty name of at most 253 characters that
is a dot-separated sequence of valid labels.  User information (`@`), a port
(`:`), brackets, blanks, and the characters that start a path, a query or a
fragment are not label characters, so none of them occurs in a host. -/
def specValidHost (h : List Char) : Bool :=
  !h.isEmpty && decide (h.length ≤ 253) &&
  (specSplitDots h).all specValidLabel

/-- The specification's "syntactically valid origin URL" for the scheme `https`:
the scheme, then `://`, then a non-empty valid host, and nothing after the host
(no path, query, fragment or trailing slash). -/
def specValidOriginURL (s : String) : Bool :=
  let lead := "https".data ++ "://".data
  lead.isPrefixOf s.data && specValidHost (s.data.drop lead.length)

/-- The specification's "valid TCP port": an integer between 1 and 65535. -/
def specValidPort (n : Int) : Prop :=
  1 ≤ n ∧ n ≤ 65535

instance (n : Int) : Decidable (specValidPort n) := by
  unfold specValidPort; infer_instance

/-! ## Helper facts -/

theorem proxyOf_config {Ext : Type} (vue : List (JSValue Ext) → Ext) :
    proxyOf (config vue) = some (proxy Ext) := by
  rfl

theorem startsWith_iff (p k : String) :
    startsWith p k = true ↔ ∃ t : String, p = k ++ t := by
  unfold startsWith
  rw [List.isPrefixOf_iff_prefix]
  constructor
  · rintro ⟨t, ht⟩
    exact ⟨⟨t⟩, String.ext (by simpa using ht.symm)⟩
  · rintro ⟨t, rfl⟩
    exact ⟨t.data, by simp⟩

/-- The origin predicate rejects strings whose remainder after `https://` is not
a host: user information only, a port only, blanks, a bracket, no host at all,
an empty label, a label that starts with a hyphen, a trailing slash, a path, a
query, a fragment, a port after the host, and another scheme. -/
theorem specValidOriginURL_rejects :
    ["https://@", "https://:443", "https://a b", "https:// ", "https://[",
     "https://", "https://a..b", "https://.a", "https://a.", "https://-a.b",
     "https://a-.b", "https://paddlejs .bj.bcebos.com",
     "https://paddlejs.bj.bcebos.com/", "https://paddlejs.bj.bcebos.com/models",
     "https://paddlejs.bj.bcebos.com?x", "https://paddlejs.bj.bcebos.com#x",
     "https://paddlejs.bj.bcebos.com:443", "https://user@paddlejs.bj.bcebos.com",
     "http://paddlejs.bj.bcebos.com", "paddlejs.bj.bcebos.com"].all
      (fun s => !specValidOriginURL s) = true := by
  decide

/-- The host of a valid origin URL is what follows `https://`: the string is
`https://` followed by a non-empty host in which every character is a letter,
a digit, a hyphen or a dot. -/
theorem specValidOriginURL_shape (s : String) (h : specValidOriginURL s = true) :
    ∃ host : List Char, s.data = "https://".data ++ host ∧ host ≠ [] ∧
      specValidHost host = true := by
  simp only [specValidOriginURL, Bool.and_eq_true] at h
  obtain ⟨hlead, hhost⟩ := h
  rw [List.isPrefixOf_iff_prefix] at hlead
  obtain ⟨t, ht⟩ := hlead
  have hdrop : s.data.drop ("https".data ++ "://".data).length = t := by
    rw [← ht]; simp
  rw [hdrop] at hhost
  refine ⟨t, ?_, ?_, hhost⟩
  · rw [← ht]; rfl
  · intro ht0
    rw [ht0] at hhost
    simp [specValidHost] at hhost

/-! ## The claims -/

/-- C1: the rewrite function of the `/models/` proxy rule returns every request
path unchanged: `rewrite p = p`, calling the function stored under
`server.proxy['/models/'].rewrite` on `p` yields `p`, and in particular
`/models/foo.json` is mapped to `/models/foo.json`. -/
theorem rewrite_is_identity {Ext : Type} (vue : List (JSValue Ext) → Ext) (p : String) :
    rewrite p = p ∧
    ((ruleOf (config vue) "/models/").bind fun r =>
      (r.get? "rewrite").bind fun f => f.call? p) = some p ∧
    rewrite "/models/foo.json" = "/models/foo.json" := by
  exact ⟨rfl, rfl, rfl⟩

/-- C2: the proxy table `server.proxy` has a rule under the key `/models/`
whose `target` is the string `https://paddlejs.bj.bcebos.com` and whose
`changeOrigin` is `true`. -/
theorem models_rule_target_changeOrigin {Ext : Type} (vue : List (JSValue Ext) → Ext) :
    ∃ rule, ruleOf (config vue) "/models/" = some rule ∧
      rule.get? "target" = some (string "https://paddlejs.bj.bcebos.com") ∧
      rule.get? "changeOrigin" = some (boolean true) := by
  exact ⟨modelsRule Ext, rfl, rfl, rfl⟩

/-- C3: the field `server.port` of the configuration object is the integer 5173. -/
theorem server_port_is_5173 {Ext : Type} (vue : List (JSValue Ext) → Ext) :
    portOf (config vue) = some (number 5173) := by
  rfl

/-- C4: the `plugins` list of the configuration object has exactly one entry,
and that entry is the value returned by the plugin factory `vue` called with no
arguments. -/
theorem plugins_is_single_vue_call {Ext : Type} (vue : List (JSValue Ext) → Ext) :
    ((config vue).get? "plugins").bind elems? = some [foreign (vue [])] ∧
    (((config vue).get? "plugins").bind elems?).map List.length = some 1 := by
  exact ⟨rfl, rfl⟩

/-- C5: the literal values of the configuration satisfy the two invariants the
specification names: the proxy target is a syntactically valid origin URL
(`https`, `://`, a non-empty host made of dot-separated labels of letters,
digits and inner hyphens, and nothing after the host: no path, query, fragment
or trailing slash) and the port is a valid TCP port number (between 1 and
65535). -/
theorem target_and_port_valid {Ext : Type} (vue : List (JSValue Ext) → Ext) :
    ∃ (t : String) (n : Int),
      ((ruleOf (config vue) "/models/").bind fun r => r.get? "target") = some (string t) ∧
      specValidOriginURL t = true ∧
      portOf (config vue) = some (number n) ∧
      specValidPort n := by
  refine ⟨"https://paddlejs.bj.bcebos.com", 5173, rfl, ?_, rfl, ?_⟩
  · decide
  · decide

/-- C6: every request path that begins with `/models/` is matched by a rule of
the proxy table (the rule's key is a prefix of the path), and the forwarded
location of that rule, its target followed by the rewritten path, is
`https://paddlejs.bj.bcebos.com` followed by the path itself. -/
theorem models_requests_are_proxied {Ext : Type} (vue : List (JSValue Ext) → Ext)
    (p : String) (hp : startsWith p "/models/" = true) :
    ∃ table key rule, proxyOf (config vue) = some table ∧
      (key, rule) ∈ table.entries ∧
      startsWith p key = true ∧
      specForwardedLocation rule p = some ("https://paddlejs.bj.bcebos.com" ++ p) := by
  refine ⟨proxy Ext, "/models/", modelsRule Ext, rfl, ?_, hp, rfl⟩
  simp [proxy, entries]

/-- Witness of C6 at the request path `/models/foo.json`. -/
theorem models_requests_are_proxied_witness :
    startsWith "/models/foo.json" "/models/" = true ∧
    ∃ table key rule, proxyOf (config sampleVue) = some table ∧
      (key, rule) ∈ table.entries ∧
      startsWith "/models/foo.json" key = true ∧
      specForwardedLocation rule "/models/foo.json"
        = some ("https://paddlejs.bj.bcebos.com" ++ "/models/foo.json") :=
  ⟨by decide, models_requests_are_proxied sampleVue "/models/foo.json" (by decide)⟩

/-- C7: the configuration has no entries beyond the listed ones: the top-level
object has exactly the keys `plugins` and `server`, `server` has exactly `port`
and `proxy`, the proxy table has exactly the one key `/models/`, and that rule
has exactly the fields `target`, `changeOrigin` and `rewrite`; hence no key of
the proxy table is a prefix of a request path that does not begin with
`/models/`. -/
theorem config_has_no_other_entries {Ext : Type} (vue : List (JSValue Ext) → Ext) :
    (config vue).keys = ["plugins", "server"] ∧
    (serverOf (config vue)).map keys = some ["port", "proxy"] ∧
    (proxyOf (config vue)).map keys = some ["/models/"] ∧
    (ruleOf (config vue) "/models/").map keys = some ["target", "changeOrigin", "rewrite"] ∧
    ∀ p : String, startsWith p "/models/" = false →
      ∀ table, proxyOf (config vue) = some table →
        ∀ key ∈ table.keys, startsWith p key = false := by
  refine ⟨rfl, rfl, rfl, rfl, ?_⟩
  intro p hp table htable key hkey
  rw [proxyOf_config] at htable
  cases htable
  have hk : key = "/models/" := by
    simpa [proxy, keys, entries] using hkey
  rw [hk]
  exact hp

/-- Witness of C7 at the request path `/index.html`, which does not begin with
`/models/`. -/
theorem config_has_no_other_entries_witness :
    startsWith "/index.html" "/models/" = false ∧
    ∀ key ∈ (proxy Unit).keys, startsWith "/index.html" key = false :=
  ⟨by decide, fun key hkey =>
    (config_has_no_other_entries sampleVue).2.2.2.2 "/index.html" (by decide)
      (proxy Unit) rfl key hkey⟩

end ViteConfig
